import Mathlib

/- Verification of the amp-extras.nvim core server against its specification.
   The Rust sources under crates/core are shallowly embedded: pure fragments
   become Lean functions, stateful fragments take and return explicit state,
   and the ambient environment (handler outcomes, editor state, clock
   readings) is passed as explicit parameters.  Strings manipulated at the
   byte level are modelled as lists of naturals (their UTF-8 bytes); file
   contents manipulated line-wise are modelled as lists of characters. -/

namespace AmpExtras

/- ===================== JSON model (serde_json::Value) ===================== -/

/- JSON values.  Numbers are restricted to integers, which covers every
   value the embedded code paths construct or inspect.  Objects are
   association lists with (as produced by serde_json) pairwise distinct
   keys. -/
inductive Json where
  | null
  | bool (b : Bool)
  | num (n : Int)
  | str (s : String)
  | arr (elems : List Json)
  | obj (fields : List (String × Json))

/- Value::get on objects: first field with the given key. -/
def Json.get : Json → String → Option Json
  | .obj fields, key => (fields.find? (fun p => p.1 == key)).map (fun p => p.2)
  | _, _ => none

/- Deserializing a JSON string. -/
def Json.asString : Json → Option String
  | .str s => some s
  | _ => none

/- ===================== Error taxonomy (errors.rs) ===================== -/

/- AmpError, with the payloads each variant carries (error sources are
   carried as their rendered messages). -/
inductive AmpError where
  | CommandNotFound (cmd : String)
  | InvalidArgs (command reason : String)
  | SerdeError (msg : String)
  | DatabaseError (msg : String)
  | IoError (msg : String)
  | AmpCliError (msg : String)
  | ThreadParseError (msg : String)
  | ConfigError (msg : String)
  | ValidationError (msg : String)
  | WebSocketError (msg : String)
  | UrlParseError (msg : String)
  | HubError (msg : String)
  | NotificationError (msg : String)
  | ConversionError (msg : String)
  | Other (msg : String)
deriving DecidableEq

/- AmpError::to_jsonrpc_code (errors.rs lines 159-177), clause for clause. -/
def AmpError.to_jsonrpc_code : AmpError → Int
  | .SerdeError _ => -32700
  | .InvalidArgs _ _ => -32602
  | .CommandNotFound _ => -32601
  | .ValidationError _ => -32600
  | .WebSocketError _ => -32001
  | .UrlParseError _ => -32600
  | .DatabaseError _ => -32002
  | .IoError _ => -32003
  | .AmpCliError _ => -32004
  | .ThreadParseError _ => -32700
  | .ConfigError _ => -32005
  | .HubError _ => -32006
  | .NotificationError _ => -32007
  | .ConversionError _ => -32008
  | .Other _ => -32603

/- The thiserror Display strings (the attribute on each variant). -/
def AmpError.toMessage : AmpError → String
  | .CommandNotFound cmd => "Command not found: " ++ cmd
  | .InvalidArgs command reason =>
      "Invalid arguments for command '" ++ command ++ "': " ++ reason
  | .SerdeError msg => "Serialization error: " ++ msg
  | .DatabaseError msg => "Database error: " ++ msg
  | .IoError msg => "I/O error: " ++ msg
  | .AmpCliError msg => "Amp CLI error: " ++ msg
  | .ThreadParseError msg => "Failed to parse thread file: " ++ msg
  | .ConfigError msg => "Configuration error: " ++ msg
  | .ValidationError msg => "Validation error: " ++ msg
  | .WebSocketError msg => "WebSocket error: " ++ msg
  | .UrlParseError msg => "URL parsing error: " ++ msg
  | .HubError msg => "Hub error: " ++ msg
  | .NotificationError msg => "Notification error: " ++ msg
  | .ConversionError msg => "Conversion error: " ++ msg
  | .Other msg => msg

/- ===================== RPC types (rpc/mod.rs) ===================== -/

/- JSON-RPC 2.0 id: untagged union of String and i64. -/
inductive RpcId where
  | str (s : String)
  | num (n : Int)
deriving DecidableEq

/- Untagged deserialization of an Id. -/
def decodeRpcId : Json → Option RpcId
  | .str s => some (.str s)
  | .num n => some (.num n)
  | _ => none

structure Request where
  jsonrpc : String
  id : RpcId
  method : String
  params : Json

structure ErrorObject where
  code : Int
  message : String
  data : Option Json

structure Response where
  jsonrpc : String
  id : RpcId
  result : Option Json
  error : Option ErrorObject

structure Notification where
  jsonrpc : String
  method : String
  params : Json

/- serde derive for Request: jsonrpc, id and method are required typed
   fields, params falls back to Value::Null when absent.  Unknown fields
   are ignored; a non-object input fails. -/
def decodeRequest (j : Json) : Option Request :=
  match j with
  | .obj _ => do
      let jsonrpc ← (j.get "jsonrpc").bind Json.asString
      let idJson ← j.get "id"
      let id ← decodeRpcId idJson
      let methodName ← (j.get "method").bind Json.asString
      some { jsonrpc := jsonrpc, id := id, method := methodName,
             params := (j.get "params").getD .null }
  | _ => none

/- serde derive for Notification: jsonrpc and method required, params
   defaulting to Null. -/
def decodeNotification (j : Json) : Option Notification :=
  match j with
  | .obj _ => do
      let jsonrpc ← (j.get "jsonrpc").bind Json.asString
      let methodName ← (j.get "method").bind Json.asString
      some { jsonrpc := jsonrpc, method := methodName,
             params := (j.get "params").getD .null }
  | _ => none

/- ClientRequestInner: id is a required String field, every other key of
   the clientRequest object is collected by the flattened map. -/
structure ClientRequestInner where
  id : String
  methodData : List (String × Json)

structure ClientRequest where
  clientRequest : ClientRequestInner

/- serde derive for ClientRequest (rename_all camelCase, inner flatten):
   the top-level object must carry a clientRequest key whose value is an
   object containing a string id; the remaining fields become methodData. -/
def decodeClientRequest (j : Json) : Option ClientRequest :=
  match j.get "clientRequest" with
  | some (.obj fields) => do
      let idField ← fields.find? (fun p => p.1 == "id")
      let id ← Json.asString idField.2
      some ⟨⟨id, fields.filter (fun p => !(p.1 == "id"))⟩⟩
  | _ => none

structure ParsedRequest where
  id : String
  method : String
  params : Json

/- ClientRequest::parse (rpc/mod.rs lines 115-131). -/
def ClientRequest.parse (cr : ClientRequest) : Except String ParsedRequest :=
  if cr.clientRequest.methodData.length ≠ 1 then
    .error "ClientRequest must have exactly one method"
  else
    match cr.clientRequest.methodData with
    | (m, p) :: _ => .ok ⟨cr.clientRequest.id, m, p⟩
    | [] => .error "No method in ClientRequest"

structure ServerResponseInner where
  id : String
  responseData : List (String × Json)

structure ServerResponse where
  serverResponse : ServerResponseInner

/- Serialization of an ErrorObject (data skipped when absent). -/
def ErrorObject.toJson (e : ErrorObject) : Json :=
  .obj ([("code", .num e.code), ("message", .str e.message)] ++
        (match e.data with
         | some d => [("data", d)]
         | none => []))

/- ServerResponse::success. -/
def ServerResponse.success (id methodName : String) (result : Json) : ServerResponse :=
  ⟨⟨id, [(methodName, result)]⟩⟩

/- ServerResponse::error. -/
def ServerResponse.errorResp (id : String) (e : ErrorObject) : ServerResponse :=
  ⟨⟨id, [("error", e.toJson)]⟩⟩

/- ===================== Router (rpc/router.rs) ===================== -/

/- route_method consults the environment: handlers read the filesystem,
   the clock and the editor, so the embedding abstracts route_method's
   behaviour as a function from method name and params to a handler
   outcome.  Every router theorem quantifies over this environment. -/
def RouteFn : Type := String → Json → Except AmpError Json

/- A concrete environment whose handlers always succeed with Null; used to
   instantiate closed counterexamples and witnesses. -/
def routeOkNull : RouteFn := fun _ _ => .ok .null

/- handle_amp_request (router.rs lines 59-75): a parse failure is mapped
   to AmpError::Other and propagated with the question-mark operator;
   handler outcomes become success or error responses. -/
def handle_amp_request (route : RouteFn) (cr : ClientRequest) :
    Except AmpError ServerResponse :=
  match cr.parse with
  | .error e => .error (.Other e)
  | .ok parsed =>
      match route parsed.method parsed.params with
      | .ok v => .ok (ServerResponse.success parsed.id parsed.method v)
      | .error err =>
          .ok (ServerResponse.errorResp parsed.id
                ⟨err.to_jsonrpc_code, err.toMessage, none⟩)

/- handle_request (router.rs lines 82-103).  The source returns
   Result<Response> but every branch is Ok, so the embedding returns the
   Response directly. -/
def handle_request (route : RouteFn) (req : Request) : Response :=
  match route req.method req.params with
  | .ok v => ⟨"2.0", req.id, some v, none⟩
  | .error err =>
      ⟨"2.0", req.id, none, some ⟨err.to_jsonrpc_code, err.toMessage, none⟩⟩

/- handle_notification (router.rs lines 108-111): routes and propagates
   any handler error, returning no response either way. -/
def handle_notification (route : RouteFn) (ntf : Notification) :
    Except AmpError Unit :=
  (route ntf.method ntf.params).map (fun _ => ())

/- The structured value the router serializes and returns: either a
   JSON-RPC response or a wrapped-dialect server response.  Serialization
   of these structures cannot fail, so the embedding keeps them
   structured instead of rendering them to text. -/
inductive Outgoing where
  | jsonrpc (r : Response)
  | amp (r : ServerResponse)

/- handle_text (router.rs lines 24-56).  The argument is the result of
   serde_json::from_str: none models malformed JSON.  Deserialization
   failures surface as AmpError::SerdeError (the embedded message strings
   are placeholders for serde's renderings; no theorem depends on them).
   The clientRequest key is tested before the jsonrpc key, and within the
   jsonrpc branch the presence of id separates requests from
   notifications. -/
def handle_text (route : RouteFn) (msg : Option Json) :
    Except AmpError (Option Outgoing) :=
  match msg with
  | none => .error (.SerdeError "invalid json")
  | some value =>
      if (value.get "clientRequest").isSome then
        match decodeClientRequest value with
        | none => .error (.SerdeError "clientRequest deserialization failed")
        | some cr => (handle_amp_request route cr).map (fun r => some (.amp r))
      else if (value.get "jsonrpc").isSome then
        if (value.get "id").isSome then
          match decodeRequest value with
          | none => .error (.SerdeError "request deserialization failed")
          | some req => .ok (some (.jsonrpc (handle_request route req)))
        else
          match decodeNotification value with
          | none => .error (.SerdeError "notification deserialization failed")
          | some ntf => (handle_notification route ntf).map (fun _ => none)
      else
        .error (.Other "Unknown message format - missing clientRequest or jsonrpc field")

/- handle_text_message (server/connection.rs lines 199-214): a returned
   response is written to the socket, a notification produces nothing,
   and a router error is dropped without any response.  The result is
   the list of frames written. -/
def handle_text_message (route : RouteFn) (msg : Option Json) : List Outgoing :=
  match handle_text route msg with
  | .ok (some r) => [r]
  | .ok none => []
  | .error _ => []

/- The unknown-format error message of router.rs line 53. -/
def unknownFormatMsg : String :=
  "Unknown message format - missing clientRequest or jsonrpc field"

/- ===================== util.rs: constant-time comparison ===================== -/

/- Byte strings: a Rust &str compared byte-wise is modelled by its list of
   UTF-8 byte values. -/
abbrev Bytes : Type := List Nat

/- ct_eq (util.rs lines 8-14): an early length check, then the subtle
   crate's slice comparison, which combines the per-byte xor of the two
   operands with bitwise-or and accepts exactly when the accumulator is
   zero.  No byte-level early exit exists. -/
def ct_eq (a b : Bytes) : Bool :=
  if a.length ≠ b.length then
    false
  else
    ((List.zipWith (fun x y => x ^^^ y) a b).foldl (fun acc d => acc ||| d) 0) == 0

/- Cost model for ct_eq: the number of byte operations executed, i.e. the
   length of the zipped byte sequence the fold traverses (zero byte
   operations happen when the length guard fails first). -/
def ct_eq_cost (a b : Bytes) : Nat :=
  if a.length ≠ b.length then 0
  else (List.zipWith (fun x y => x ^^^ y) a b).length

/- ===================== Hub (server/hub.rs) ===================== -/

/- The state of one client's outbound crossbeam channel, as observed by
   try_send: a buffer of pending text frames, a disconnected flag, and an
   optional capacity bound (none models an unbounded channel). -/
structure ClientQueue where
  msgs : List String
  closed : Bool
  capacity : Option Nat
deriving DecidableEq

/- Sender::try_send: fails on a disconnected or full channel, otherwise
   appends the message.  Returns the new queue state and whether the
   enqueue happened. -/
def ClientQueue.try_send (q : ClientQueue) (m : String) : ClientQueue × Bool :=
  if q.closed then (q, false)
  else
    match q.capacity with
    | some cap =>
        if cap ≤ q.msgs.length then (q, false)
        else ({ q with msgs := q.msgs ++ [m] }, true)
    | none => ({ q with msgs := q.msgs ++ [m] }, true)

/- The Hub's client registry: ClientId → outbound sender, modelled as an
   association list with distinct keys (HashMap). -/
structure Hub where
  clients : List (Nat × ClientQueue)

/- HashMap::insert. -/
def Hub.register (h : Hub) (id : Nat) (q : ClientQueue) : Hub :=
  ⟨(id, q) :: h.clients.filter (fun p => p.1 ≠ id)⟩

/- HashMap::remove. -/
def Hub.unregister (h : Hub) (id : Nat) : Hub :=
  ⟨h.clients.filter (fun p => p.1 ≠ id)⟩

def Hub.client_count (h : Hub) : Nat := h.clients.length

def Hub.lookup (h : Hub) (id : Nat) : Option ClientQueue :=
  (h.clients.find? (fun p => p.1 = id)).map (fun p => p.2)

/- Hub::broadcast (hub.rs lines 56-66): snapshot the registry under the
   mutex, then one try_send per registered client, discarding each
   result.  The embedding returns the hub with every queue updated by its
   own try_send attempt. -/
def Hub.broadcast (h : Hub) (message : String) : Hub :=
  ⟨h.clients.map (fun p => (p.1, (p.2.try_send message).1))⟩

/- ===================== Handshake (server/connection.rs) ===================== -/

/- Outcome of the accept_with_auth header callback: accept the upgrade or
   reject it with an HTTP status code. -/
inductive HandshakeOutcome where
  | accepted
  | rejected (status : Nat)
deriving DecidableEq

/- accept_with_auth (connection.rs lines 219-280), given the parsed query
   pairs of the request URL.  Token values are byte strings.  The first
   pair whose key is auth is compared with the process token in constant
   time; a mismatch or a missing parameter yields 401 Unauthorized.
   (The separate 400 branch for an unparseable URL is below the level of
   this model, which starts from parsed query pairs.) -/
def accept_with_auth (query : List (String × Bytes)) (expectedToken : Bytes) :
    HandshakeOutcome :=
  match (query.find? (fun p => p.1 == "auth")).map (fun p => p.2) with
  | some token => if ct_eq token expectedToken then .accepted else .rejected 401
  | none => .rejected 401

/- A freshly created unbounded outbound channel. -/
def freshQueue : ClientQueue := ⟨[], false, none⟩

/- The handshake phase of handle_connection (connection.rs lines 35-85):
   on a successful handshake the client is registered in the hub with a
   new unbounded channel and no HTTP error is produced; on a handshake
   failure the hub is left untouched and the rejection status is the
   response.  (The subsequent message loop and the final unregister lie
   outside this phase.) -/
def handle_connection_handshake (hub : Hub) (clientId : Nat)
    (query : List (String × Bytes)) (expectedToken : Bytes) :
    Hub × Option Nat :=
  match accept_with_auth query expectedToken with
  | .accepted => (hub.register clientId freshQueue, none)
  | .rejected code => (hub, some code)

/- ===================== Heartbeat loop (server/connection.rs) ===================== -/

def PING_INTERVAL_MS : Nat := 30000
def PONG_TIMEOUT_MS : Nat := 60000
def READ_TIMEOUT_MS : Nat := 100

/- Heartbeat state of run_message_loop: the Instants last_ping and
   last_pong, as milliseconds. -/
structure LoopState where
  lastPing : Nat
  lastPong : Nat

/- run_message_loop (connection.rs lines 93-157) projected onto a client
   that never delivers a pong and sends no frames, so that every read
   times out (the WouldBlock branch) and last_pong never advances.  The
   argument lists the clock readings of the successive loop iterations.
   Each iteration first sends a ping when at least PING_INTERVAL has
   elapsed since last_ping (updating last_ping), then breaks out of the
   loop when at least PONG_TIMEOUT has elapsed since last_pong.  The
   result collects the times at which pings were sent and the time at
   which the loop exited (none when the trace ended first). -/
def run_message_loop (s : LoopState) : List Nat → List Nat × Option Nat
  | [] => ([], none)
  | now :: rest =>
      let pings : List Nat :=
        if PING_INTERVAL_MS ≤ now - s.lastPing then [now] else []
      if PONG_TIMEOUT_MS ≤ now - s.lastPong then
        (pings, some now)
      else
        let r := run_message_loop
          (if PING_INTERVAL_MS ≤ now - s.lastPing then
            { s with lastPing := now }
          else s) rest
        (pings ++ r.1, r.2)

/- ===================== File operations (ide_ops) ===================== -/

/- content.split with the newline character (String::split never yields an
   empty iterator: splitting the empty string gives one empty piece). -/
def splitNl : List Char → List (List Char)
  | [] => [[]]
  | c :: cs =>
      if c = '\n' then [] :: splitNl cs
      else
        match splitNl cs with
        | l :: ls => (c :: l) :: ls
        | [] => [[c]]

/- lines.join with a newline separator (read_file's buffer branch). -/
def joinNl : List (List Char) → List Char
  | [] => []
  | [l] => l
  | l :: ls => l ++ '\n' :: joinNl ls

/- Whether a path string is absolute (Path::is_absolute on Unix). -/
def isAbsolutePath (p : String) : Bool :=
  match p.data with
  | '/' :: _ => true
  | _ => false

/- normalize_path (ide_ops/mod.rs lines 190-224): absolute paths pass
   through; relative paths are resolved against the current directory.
   (The optional fnamemodify branch also resolves against Neovim's cwd;
   the embedding uses the deterministic fallback.) -/
def normalize_path (cwd p : String) : String :=
  if isAbsolutePath p then p else cwd ++ "/" ++ p

/- The system state an ide_ops handler touches: the disk (path → file
   content), the loaded Neovim buffers (normalized path → lines), whether
   the Neovim API is available, and the current directory. -/
structure SysState where
  fs : List (String × List Char)
  bufs : List (String × List (List Char))
  nvimAvailable : Bool
  cwd : String

def fsRead (fs : List (String × List Char)) (p : String) : Option (List Char) :=
  (fs.find? (fun e => e.1 == p)).map (fun e => e.2)

def fsWrite (fs : List (String × List Char)) (p : String) (c : List Char) :
    List (String × List Char) :=
  (p, c) :: fs.filter (fun e => !(e.1 == p))

def bufFind (bufs : List (String × List (List Char))) (p : String) :
    Option (List (List Char)) :=
  (bufs.find? (fun e => e.1 == p)).map (fun e => e.2)

def bufSet (bufs : List (String × List (List Char))) (p : String)
    (lines : List (List Char)) : List (String × List (List Char)) :=
  (p, lines) :: bufs.filter (fun e => !(e.1 == p))

/- Result of a successful editFile. -/
structure EditFileResult where
  success : Bool
  message : String
  appliedChanges : Bool
deriving DecidableEq

/- Result of a successful readFile. -/
structure ReadFileResult where
  success : Bool
  content : List Char
  encoding : String
deriving DecidableEq

/- edit_file (ide_ops/edit_file.rs lines 39-102) after parameter
   decoding: normalize the path, ensure the parent directory exists (the
   flat filesystem model needs no step for this), split the content into
   lines, replace the whole line range of a loaded buffer matching the
   path if there is one (never creating a buffer), write the content
   verbatim to disk, and report success with appliedChanges set.  The
   embedded editor host cannot fail, so the IO error paths do not
   arise. -/
def edit_file (st : SysState) (path : String) (content : List Char) :
    SysState × Except AmpError EditFileResult :=
  let np := normalize_path st.cwd path
  let lines := splitNl content
  let bufs1 :=
    if st.nvimAvailable then
      match bufFind st.bufs np with
      | some _ => bufSet st.bufs np lines
      | none => st.bufs
    else st.bufs
  ({ st with fs := fsWrite st.fs np content, bufs := bufs1 },
   .ok ⟨true, "Wrote " ++ toString content.length ++ " bytes to " ++ path, true⟩)

/- read_file (ide_ops/read_file.rs lines 38-93) after parameter decoding:
   normalize the path, return the joined lines of a loaded buffer for the
   path when Neovim is available and has one, otherwise read the file
   from disk, failing with IoError when it does not exist. -/
def read_file (st : SysState) (path : String) :
    Except AmpError ReadFileResult :=
  let np := normalize_path st.cwd path
  match (if st.nvimAvailable then bufFind st.bufs np else none) with
  | some lines => .ok ⟨true, joinNl lines, "utf-8"⟩
  | none =>
      match fsRead st.fs np with
      | some content => .ok ⟨true, content, "utf-8"⟩
      | none => .error (.IoError ("Failed to read file " ++ path))

/- ===================== Selection change handler ===================== -/

/- The observed editor selection state (autocmds/selection_changed.rs
   lines 29-37). -/
structure SelectionState where
  uri : String
  startLine : Nat
  startChar : Nat
  endLine : Nat
  endChar : Nat
  content : String
deriving DecidableEq

/- handle_event (autocmds/selection_changed.rs lines 126-199).  The
   arguments are the availability flag and the selection state the
   handler observes (none models an unnamed buffer, whose non-absolute
   path makes the handler return before touching the cell); the last
   argument is the thread-local LAST_SELECTION cell.  The result is the
   new cell value and the list of selectionDidChange payloads broadcast:
   the handler broadcasts exactly when the observed state differs from
   the cell, and writes the cell exactly in that case. -/
def selection_handle_event (nvimAvail : Bool) (observed : Option SelectionState)
    (last : Option SelectionState) :
    Option SelectionState × List SelectionState :=
  if !nvimAvail then (last, [])
  else
    match observed with
    | none => (last, [])
    | some cur =>
        if last ≠ some cur then (some cur, [cur]) else (last, [])

/- ===================== Lockfile lifecycle (server/mod.rs, lockfile.rs) ===================== -/

/- A flat filesystem of JSON documents, for the lockfile directory. -/
def JsonFs : Type := List (String × Json)

def jsonFsRead (fs : JsonFs) (p : String) : Option Json :=
  (fs.find? (fun e => e.1 == p)).map (fun e => e.2)

def jsonFsWrite (fs : JsonFs) (p : String) (j : Json) : JsonFs :=
  (p, j) :: fs.filter (fun e => !(e.1 == p))

def jsonFsRemove (fs : JsonFs) (p : String) : JsonFs :=
  fs.filter (fun e => !(e.1 == p))

/- lockfile_dir (lockfile.rs lines 48-55). -/
def lockfile_dir (home : String) : String :=
  home ++ "/.local/share/amp/ide"

/- The serialization of the Lockfile struct (lockfile.rs lines 20-28),
   with serde's camelCase renaming. -/
def lockfileJson (port : Nat) (token : String) (pid : Nat) (cwd : String)
    (ideName : String) : Json :=
  .obj [("port", .num port), ("authToken", .str token), ("pid", .num pid),
        ("workspaceFolders", .arr [.str cwd]), ("ideName", .str ideName)]

/- write_lockfile (lockfile.rs lines 60-88): create the directory, write
   home/.local/share/amp/ide/<port>.json, return its path. -/
def write_lockfile (fs : JsonFs) (home : String) (port : Nat) (token : String)
    (pid : Nat) (cwd : String) (ideName : String) : JsonFs × String :=
  let path := lockfile_dir home ++ "/" ++ toString port ++ ".json"
  (jsonFsWrite fs path (lockfileJson port token pid cwd ideName), path)

/- The singleton server handle (server/mod.rs lines 24-30), restricted to
   the fields the lifecycle claims observe. -/
structure ServerHandle where
  shutdown : Bool
  lockfilePath : String
  port : Nat

/- The process state the lifecycle functions act on: the lockfile
   filesystem and the SERVER singleton. -/
structure ServerWorld where
  fs : JsonFs
  server : Option ServerHandle

/- The ambient inputs start() draws from the environment: the OS-assigned
   port, the generated 32-character token, the process id, the current
   directory and the editor name. -/
structure StartEnv where
  home : String
  port : Nat
  token : String
  pid : Nat
  cwd : String
  ideName : String

/- start (server/mod.rs lines 57-106): fails when the singleton is
   already set; otherwise writes the lockfile, stores the handle, and
   returns (port, token, lockfile_path). -/
def server_start (w : ServerWorld) (env : StartEnv) :
    ServerWorld × Except AmpError (Nat × String × String) :=
  match w.server with
  | some _ => (w, .error (.Other "Server already running"))
  | none =>
      let r := write_lockfile w.fs env.home env.port env.token env.pid env.cwd
                 env.ideName
      ({ fs := r.1, server := some ⟨false, r.2, env.port⟩ },
       .ok (env.port, env.token, r.2))

/- stop (server/mod.rs lines 109-119 with ServerHandle::stop lines
   32-43): take the handle out of the singleton, set the shutdown flag,
   join the acceptor, and remove the lockfile; a no-op when the server
   was never started. -/
def server_stop (w : ServerWorld) : ServerWorld :=
  match w.server with
  | some h => { fs := jsonFsRemove w.fs h.lockfilePath, server := none }
  | none => w

/- Concrete closed inputs used by counterexamples and witnesses. -/

/- A JSON-RPC message carrying an id but no method field. -/
def c1CexMsg : Json := .obj [("jsonrpc", .str "2.0"), ("id", .num 1)]

/- A wrapped message whose clientRequest carries an id and no method key. -/
def c2CexMsg : Json := .obj [("clientRequest", .obj [("id", .str "r1")])]

/- A wrapped ping request that also carries a jsonrpc key. -/
def c10WitnessMsg : Json :=
  .obj [("clientRequest", .obj [("id", .str "w1"), ("ping", .obj [])]),
        ("jsonrpc", .str "2.0")]

/- A well-formed JSON-RPC ping request. -/
def c1WitnessMsg : Json :=
  .obj [("jsonrpc", .str "2.0"), ("id", .num 7), ("method", .str "ping")]

/- ========================================================================
   Theorems
   ======================================================================== -/

theorem decodeClientRequest_isSome {j : Json} {cr : ClientRequest}
    (h : decodeClientRequest j = some cr) : (j.get "clientRequest").isSome := by
  unfold decodeClientRequest at h
  cases hc : j.get "clientRequest" with
  | none => rw [hc] at h; cases h
  | some v => simp [hc]

theorem decodeRequest_jsonrpc_isSome {j : Json} {req : Request}
    (h : decodeRequest j = some req) : (j.get "jsonrpc").isSome := by
  unfold decodeRequest at h
  cases j <;> simp_all
  cases hc : Json.get _ "jsonrpc" <;> simp_all

theorem decodeRequest_id_isSome {j : Json} {req : Request}
    (h : decodeRequest j = some req) : (j.get "id").isSome := by
  unfold decodeRequest at h
  cases j <;> simp_all
  cases hc : Json.get _ "id" <;> simp_all

theorem ClientRequest.parse_error_ne {cr : ClientRequest} {e : String}
    (h : cr.parse = .error e) : e ≠ unknownFormatMsg := by
  unfold ClientRequest.parse at h
  split at h
  · injection h with h1
    rw [← h1]
    decide
  · split at h
    · cases h
    · injection h with h1
      rw [← h1]
      decide

theorem handle_request_id (route : RouteFn) (req : Request) :
    (handle_request route req).id = req.id := by
  unfold handle_request
  cases route req.method req.params <;> rfl

theorem handle_request_error_iff (route : RouteFn) (req : Request) :
    (handle_request route req).error = none ↔
      ∃ v, route req.method req.params = .ok v := by
  unfold handle_request
  cases h : route req.method req.params <;> simp [h]

/-- C1 (amended): for every environment and every incoming JSON text, a
JSON-RPC request that deserializes into the expected Request structure is
answered by exactly one response with the matching id, a success response
exactly when the handler succeeds; a wrapped request whose clientRequest
deserializes and parses is answered by exactly one serverResponse with the
matching id; a JSON-RPC notification (no id) is answered by nothing; and a
message that carries an id but whose body fails to deserialize is also
answered by nothing, because the router surfaces the deserialization
failure as an error that the connection layer drops. -/
theorem c1_one_response_per_wellformed_request (route : RouteFn) (j : Json) :
    (∀ req : Request, j.get "clientRequest" = none → decodeRequest j = some req →
      handle_text_message route (some j) = [.jsonrpc (handle_request route req)] ∧
      (handle_request route req).id = req.id ∧
      ((handle_request route req).error = none ↔
        ∃ v, route req.method req.params = .ok v)) ∧
    (∀ (cr : ClientRequest) (p : ParsedRequest),
      decodeClientRequest j = some cr → cr.parse = .ok p →
      ∃ sr : ServerResponse, handle_text_message route (some j) = [.amp sr] ∧
        sr.serverResponse.id = p.id) ∧
    (j.get "clientRequest" = none → (j.get "jsonrpc").isSome →
      j.get "id" = none → handle_text_message route (some j) = []) ∧
    (j.get "clientRequest" = none → decodeRequest j = none →
      (j.get "jsonrpc").isSome → (j.get "id").isSome →
      handle_text_message route (some j) = []) := by
  refine ⟨?_, ?_, ?_, ?_⟩
  · intro req hcr hdec
    refine ⟨?_, handle_request_id route req, handle_request_error_iff route req⟩
    have hj := decodeRequest_jsonrpc_isSome hdec
    have hid := decodeRequest_id_isSome hdec
    simp [handle_text_message, handle_text, hcr, hj, hid, hdec]
  · intro cr p hdec hp
    have hcr := decodeClientRequest_isSome hdec
    cases hr : route p.method p.params with
    | ok v =>
        refine ⟨ServerResponse.success p.id p.method v, ?_, rfl⟩
        simp [handle_text_message, handle_text, hcr, hdec, handle_amp_request,
          hp, hr, Except.map]
    | error e =>
        refine ⟨ServerResponse.errorResp p.id
          ⟨e.to_jsonrpc_code, e.toMessage, none⟩, ?_, rfl⟩
        simp [handle_text_message, handle_text, hcr, hdec, handle_amp_request,
          hp, hr, Except.map]
  · intro hcr hj hid
    simp only [handle_text_message, handle_text, hcr, hj, hid]
    cases hd : decodeNotification j with
    | none => simp [hd]
    | some ntf =>
        simp only [hd]
        cases hn : handle_notification route ntf <;> simp [hn, Except.map]
  · intro hcr hdec hj hid
    simp [handle_text_message, handle_text, hcr, hj, hid, hdec]

/-- C1 (counterexample): the message with top level jsonrpc and id 1 but no
method carries a request id, yet the connection sends zero responses for
it, refuting the claim that every message with an id is answered. -/
theorem c1_counterexample :
    (c1CexMsg.get "id").isSome = true ∧
    handle_text_message routeOkNull (some c1CexMsg) = [] := by
  exact ⟨rfl, rfl⟩

/-- C1 witness instantiation at a concrete well-formed ping request. -/
theorem c1_witness :
    handle_text_message routeOkNull (some c1WitnessMsg) =
      [.jsonrpc (handle_request routeOkNull
        ⟨"2.0", .num 7, "ping", .null⟩)] := by
  have h := (c1_one_response_per_wellformed_request routeOkNull c1WitnessMsg).1
    ⟨"2.0", .num 7, "ping", .null⟩ rfl rfl
  exact h.1

/-- C2 (amended): a wrapped message whose clientRequest deserializes but
does not contain exactly one method-named key alongside id makes
ClientRequest::parse fail; the router propagates the failure as
AmpError::Other, whose JSON-RPC code is -32603 (InternalError), not
-32600, and the connection layer sends no error response at all. -/
theorem c2_wrapped_wrong_method_count (route : RouteFn) (j : Json)
    (cr : ClientRequest) (hdec : decodeClientRequest j = some cr)
    (hlen : cr.clientRequest.methodData.length ≠ 1) :
    handle_text route (some j) =
      .error (.Other "ClientRequest must have exactly one method") ∧
    AmpError.to_jsonrpc_code
      (.Other "ClientRequest must have exactly one method") = -32603 ∧
    handle_text_message route (some j) = [] := by
  have hcr := decodeClientRequest_isSome hdec
  have hparse : cr.parse =
      .error "ClientRequest must have exactly one method" := by
    unfold ClientRequest.parse
    simp [hlen]
  refine ⟨?_, rfl, ?_⟩ <;>
    simp [handle_text_message, handle_text, hcr, hdec, handle_amp_request,
      hparse, Except.map]

/-- C2 (counterexample): for the wrapped message whose clientRequest has
an id and zero method keys, the server sends no response at all — in
particular no error response carrying code -32600 — and the router error
it drops maps to -32603. -/
theorem c2_counterexample :
    handle_text_message routeOkNull (some c2CexMsg) = [] ∧
    handle_text routeOkNull (some c2CexMsg) =
      .error (.Other "ClientRequest must have exactly one method") ∧
    AmpError.to_jsonrpc_code
      (.Other "ClientRequest must have exactly one method") = -32603 := by
  exact ⟨rfl, rfl, rfl⟩

/-- C2 witness instantiation at the concrete zero-method wrapped message. -/
theorem c2_witness :
    handle_text routeOkNull (some c2CexMsg) =
      .error (.Other "ClientRequest must have exactly one method") := by
  exact (c2_wrapped_wrong_method_count routeOkNull c2CexMsg
    ⟨⟨"r1", []⟩⟩ rfl (by decide)).1

/-- C10 (confirmed): dialect detection gives the wrapped dialect
precedence — any message whose clientRequest deserializes and parses is
handled as a wrapped request (answered with a serverResponse envelope
bearing its id) whether or not a jsonrpc key is also present — and,
provided no handler itself fails with the unknown-format message, the
router rejects a message as unknown-format exactly when its top level
contains neither a clientRequest key nor a jsonrpc key. -/
theorem c10_wrapped_dialect_precedence (route : RouteFn) (j : Json)
    (hroute : ∀ m p, route m p ≠ .error (.Other unknownFormatMsg)) :
    (∀ (cr : ClientRequest) (p : ParsedRequest),
      decodeClientRequest j = some cr → cr.parse = .ok p →
      ∃ sr : ServerResponse, handle_text route (some j) = .ok (some (.amp sr)) ∧
        sr.serverResponse.id = p.id) ∧
    (handle_text route (some j) = .error (.Other unknownFormatMsg) ↔
      j.get "clientRequest" = none ∧ j.get "jsonrpc" = none) := by
  constructor
  · intro cr p hdec hp
    have hcr := decodeClientRequest_isSome hdec
    cases hr : route p.method p.params with
    | ok v =>
        refine ⟨ServerResponse.success p.id p.method v, ?_, rfl⟩
        simp [handle_text, hcr, hdec, handle_amp_request, hp, hr, Except.map]
    | error e =>
        refine ⟨ServerResponse.errorResp p.id
          ⟨e.to_jsonrpc_code, e.toMessage, none⟩, ?_, rfl⟩
        simp [handle_text, hcr, hdec, handle_amp_request, hp, hr, Except.map]
  · constructor
    · intro h
      by_cases hcr : (j.get "clientRequest").isSome
      · exfalso
        simp only [handle_text, hcr, if_pos rfl] at h
        cases hdec : decodeClientRequest j with
        | none => simp [hdec] at h
        | some cr =>
            simp only [hdec] at h
            unfold handle_amp_request at h
            cases hp : cr.parse with
            | error e =>
                simp only [hp, Except.map] at h
                have he : e = unknownFormatMsg := by simpa using h
                exact ClientRequest.parse_error_ne hp he
            | ok p =>
                cases hr : route p.method p.params <;> simp [hp, hr, Except.map] at h
      · have hcrn : j.get "clientRequest" = none := by
          cases hq : j.get "clientRequest" with
          | none => rfl
          | some v => rw [hq] at hcr; simp at hcr
        refine ⟨hcrn, ?_⟩
        by_cases hj : (j.get "jsonrpc").isSome
        · exfalso
          simp only [handle_text, hcrn, hj] at h
          by_cases hid : (j.get "id").isSome
          · simp only [hid, if_pos rfl] at h
            cases hdec : decodeRequest j <;> simp [hdec] at h
          · simp only [Bool.not_eq_true] at hid
            simp only [hid, Bool.false_eq_true, if_false] at h
            cases hdec : decodeNotification j with
            | none => simp [hdec] at h
            | some ntf =>
                simp only [hdec] at h
                unfold handle_notification at h
                cases hr : route ntf.method ntf.params with
                | ok v => simp [hr, Except.map] at h
                | error e =>
                    simp only [hr, Except.map] at h
                    injection h with h1
                    exact hroute ntf.method ntf.params (by rw [hr, h1])
        · cases hq : j.get "jsonrpc" with
          | none => rfl
          | some v => rw [hq] at hj; simp at hj
    · rintro ⟨hcr, hj⟩
      simp [handle_text, hcr, hj, unknownFormatMsg]

theorem lor_eq_zero_iff {a b : Nat} : a ||| b = 0 ↔ a = 0 ∧ b = 0 := by
  constructor
  · intro h
    constructor
    · apply Nat.zero_of_testBit_eq_false
      intro k
      have ht := congrArg (fun n => Nat.testBit n k) h
      simp only [Nat.testBit_lor, Nat.zero_testBit, Bool.or_eq_false_iff] at ht
      exact ht.1
    · apply Nat.zero_of_testBit_eq_false
      intro k
      have ht := congrArg (fun n => Nat.testBit n k) h
      simp only [Nat.testBit_lor, Nat.zero_testBit, Bool.or_eq_false_iff] at ht
      exact ht.2
  · rintro ⟨rfl, rfl⟩; rfl

theorem foldl_lor_eq_zero {l : List Nat} {acc : Nat} :
    l.foldl (fun a d => a ||| d) acc = 0 ↔ acc = 0 ∧ ∀ x ∈ l, x = 0 := by
  induction l generalizing acc with
  | nil => simp
  | cons x xs ih =>
      simp only [List.foldl_cons, ih, lor_eq_zero_iff, List.mem_cons]
      constructor
      · rintro ⟨⟨h1, h2⟩, h3⟩
        exact ⟨h1, fun y hy => hy.elim (fun e => e ▸ h2) (h3 y)⟩
      · rintro ⟨h1, h2⟩
        exact ⟨⟨h1, h2 x (Or.inl rfl)⟩, fun y hy => h2 y (Or.inr hy)⟩

theorem zipWith_xor_zero_iff {a b : List Nat} (hlen : a.length = b.length) :
    (∀ x ∈ List.zipWith (fun x y => x ^^^ y) a b, x = 0) ↔ a = b := by
  induction a generalizing b with
  | nil => cases b with
    | nil => simp
    | cons y ys => simp at hlen
  | cons x xs ih =>
      cases b with
      | nil => simp at hlen
      | cons y ys =>
          simp only [List.length_cons, Nat.add_right_cancel_iff] at hlen
          simp only [List.zipWith_cons_cons, List.mem_cons, List.cons.injEq]
          constructor
          · intro h
            have hx : x = y := Nat.xor_eq_zero.mp (h _ (Or.inl rfl))
            exact ⟨hx, (ih hlen).mp (fun z hz => h z (Or.inr hz))⟩
          · rintro ⟨rfl, rfl⟩
            intro z hz
            rcases hz with h | h
            · rw [h]; exact Nat.xor_self x
            · revert h
              exact fun h => ((ih hlen).mpr rfl) z h

theorem ct_eq_eq_true_iff (a b : Bytes) : ct_eq a b = true ↔ a = b := by
  unfold ct_eq
  by_cases h : a.length = b.length
  · simp only [h, ne_eq, not_true_eq_false, if_false, beq_iff_eq]
    rw [foldl_lor_eq_zero]
    simp only [true_and]
    exact zipWith_xor_zero_iff h
  · simp only [ne_eq, h, not_false_eq_true, if_true]
    constructor
    · intro hf; exact absurd hf (by simp)
    · intro heq; exact absurd (congrArg List.length heq) h

/-- C9 (confirmed): under the cost model counting the byte operations the
comparison loop executes, ct_eq on equal-length inputs performs a number
of operations that depends only on the common length — in particular it
is independent of the position at which the inputs first differ — and
ct_eq decides equality: it returns true exactly when the two byte strings
are equal. -/
theorem c9_ct_eq_constant_time (a b c d : Bytes)
    (hab : a.length = b.length) (hcd : c.length = d.length)
    (hac : a.length = c.length) :
    ct_eq_cost a b = ct_eq_cost c d ∧ (ct_eq a b = true ↔ a = b) := by
  constructor
  · unfold ct_eq_cost
    simp only [hab, hcd, ne_eq, not_true_eq_false, if_false,
      List.length_zipWith]
    omega
  · exact ct_eq_eq_true_iff a b

/-- C9 witness instantiation: two equal-length pairs differing at
different positions have identical operation counts, and ct_eq computes
equality on a concrete pair. -/
theorem c9_witness :
    ct_eq_cost [1, 2, 3] [1, 2, 9] = ct_eq_cost [7, 5, 5] [9, 5, 5] ∧
    (ct_eq [1, 2, 3] [1, 2, 9] = true ↔ [1, 2, 3] = [1, 2, 9]) := by
  exact c9_ct_eq_constant_time [1, 2, 3] [1, 2, 9] [7, 5, 5] [9, 5, 5]
    rfl rfl rfl

theorem hub_lookup_none_filter {h : Hub} {id : Nat} (hl : h.lookup id = none) :
    h.clients.filter (fun p => p.1 ≠ id) = h.clients := by
  apply List.filter_eq_self.mpr
  intro p hp
  unfold Hub.lookup at hl
  rw [Option.map_eq_none'] at hl
  have := List.find?_eq_none.mp hl p hp
  simpa using this

/-- C3 (confirmed): a connection attempt whose auth query parameter is
missing, or present but different from the process token, is rejected
with HTTP 401 and leaves the hub untouched (in particular the client
count does not increase); an attempt whose auth parameter equals the
token is accepted and the client is registered, raising the client count
by one when the id is fresh. -/
theorem c3_handshake_auth (hub : Hub) (id : Nat)
    (query : List (String × Bytes)) (tok : Bytes) :
    ((query.find? (fun p => p.1 == "auth")).map (fun p => p.2) = none →
      handle_connection_handshake hub id query tok = (hub, some 401)) ∧
    (∀ v, (query.find? (fun p => p.1 == "auth")).map (fun p => p.2) = some v →
      v ≠ tok → handle_connection_handshake hub id query tok = (hub, some 401)) ∧
    ((query.find? (fun p => p.1 == "auth")).map (fun p => p.2) = some tok →
      (handle_connection_handshake hub id query tok).2 = none ∧
      (handle_connection_handshake hub id query tok).1 =
        hub.register id freshQueue ∧
      (hub.lookup id = none →
        (handle_connection_handshake hub id query tok).1.client_count =
          hub.client_count + 1)) := by
  refine ⟨?_, ?_, ?_⟩
  · intro hnone
    simp [handle_connection_handshake, accept_with_auth, hnone]
  · intro v hv hne
    have hct : ct_eq v tok = false := by
      cases hc : ct_eq v tok
      · rfl
      · exact absurd ((ct_eq_eq_true_iff v tok).mp hc) hne
    simp [handle_connection_handshake, accept_with_auth, hv, hct]
  · intro hv
    have hct : ct_eq tok tok = true := (ct_eq_eq_true_iff tok tok).mpr rfl
    refine ⟨?_, ?_, ?_⟩
    · simp [handle_connection_handshake, accept_with_auth, hv, hct]
    · simp [handle_connection_handshake, accept_with_auth, hv, hct]
    · intro hl
      have h1 : (handle_connection_handshake hub id query tok).1 =
          hub.register id freshQueue := by
        simp [handle_connection_handshake, accept_with_auth, hv, hct]
      rw [h1]
      unfold Hub.register Hub.client_count
      rw [hub_lookup_none_filter hl]
      simp

/-- C3 witness instantiation: a wrong token is rejected with 401 leaving
an empty hub empty, and the right token registers the client. -/
theorem c3_witness :
    handle_connection_handshake ⟨[]⟩ 1 [("auth", [3, 4])] [1, 2] =
      (⟨[]⟩, some 401) ∧
    (handle_connection_handshake ⟨[]⟩ 1 [("auth", [1, 2])] [1, 2]).2 = none ∧
    (handle_connection_handshake ⟨[]⟩ 1
      [("auth", [1, 2])] [1, 2]).1.client_count = Hub.client_count ⟨[]⟩ + 1 := by
  refine ⟨?_, ?_, ?_⟩
  · exact (c3_handshake_auth ⟨[]⟩ 1 [("auth", [3, 4])] [1, 2]).2.1
      [3, 4] rfl (by decide)
  · exact ((c3_handshake_auth ⟨[]⟩ 1 [("auth", [1, 2])] [1, 2]).2.2 rfl).1
  · exact ((c3_handshake_auth ⟨[]⟩ 1 [("auth", [1, 2])] [1, 2]).2.2 rfl).2.2 rfl

theorem try_send_true_spec {q : ClientQueue} {m : String}
    (h : (q.try_send m).2 = true) : (q.try_send m).1.msgs = q.msgs ++ [m] := by
  unfold ClientQueue.try_send at *
  by_cases hc : q.closed
  · simp [hc] at h
  · cases hcap : q.capacity with
    | none => simp [hc, hcap]
    | some cap =>
        simp only [hc, hcap, Bool.false_eq_true, if_false] at *
        by_cases hfull : cap ≤ q.msgs.length
        · simp [hfull] at h
        · simp [hfull]

theorem try_send_false_spec {q : ClientQueue} {m : String}
    (h : (q.try_send m).2 = false) : (q.try_send m).1 = q := by
  unfold ClientQueue.try_send at *
  by_cases hc : q.closed
  · simp [hc]
  · cases hcap : q.capacity with
    | none => simp [hc, hcap] at h
    | some cap =>
        simp only [hc, hcap, Bool.false_eq_true, if_false] at *
        by_cases hfull : cap ≤ q.msgs.length
        · simp [hfull]
        · simp [hfull] at h

/-- C4 (confirmed): broadcast keeps the registered client ids and the
client count unchanged and performs exactly one try_send attempt of the
message on every registered client's queue — a successful attempt appends
the message exactly once to that queue, a failed attempt (closed or full
queue) leaves the queue exactly as it was — and broadcast is a total
function with no error outcome. -/
theorem c4_broadcast_one_enqueue_attempt_each (h : Hub) (m : String) :
    (h.broadcast m).clients.map Prod.fst = h.clients.map Prod.fst ∧
    (h.broadcast m).client_count = h.client_count ∧
    (h.broadcast m).clients = h.clients.map
      (fun p => (p.1, (p.2.try_send m).1)) ∧
    ∀ p ∈ h.clients,
      ((p.2.try_send m).2 = true →
        (p.2.try_send m).1.msgs = p.2.msgs ++ [m]) ∧
      ((p.2.try_send m).2 = false → (p.2.try_send m).1 = p.2) := by
  refine ⟨?_, ?_, rfl, ?_⟩
  · simp [Hub.broadcast]
  · simp [Hub.broadcast, Hub.client_count]
  · intro p _
    exact ⟨try_send_true_spec, try_send_false_spec⟩

/-- C4 witness instantiation: broadcasting to a hub with one live client
and one closed client enqueues the message exactly once on the live queue
and leaves the closed queue untouched. -/
theorem c4_witness :
    (Hub.broadcast ⟨[(1, ⟨[], false, none⟩), (2, ⟨[], true, none⟩)]⟩
        "msg").clients =
      [(1, ⟨["msg"], false, none⟩), (2, ⟨[], true, none⟩)] ∧
    (Hub.broadcast ⟨[(1, ⟨[], false, none⟩), (2, ⟨[], true, none⟩)]⟩
        "msg").client_count =
      Hub.client_count ⟨[(1, ⟨[], false, none⟩), (2, ⟨[], true, none⟩)]⟩ := by
  have hth := c4_broadcast_one_enqueue_attempt_each
    ⟨[(1, ⟨[], false, none⟩), (2, ⟨[], true, none⟩)]⟩ "msg"
  exact ⟨by rw [hth.2.2.1]; rfl, hth.2.1⟩

/-- C10 witness instantiation: a message carrying both clientRequest and
jsonrpc keys is answered with a wrapped serverResponse. -/
theorem c10_witness :
    ∃ sr : ServerResponse,
      handle_text routeOkNull (some c10WitnessMsg) = .ok (some (.amp sr)) ∧
      sr.serverResponse.id = "w1" := by
  have h := c10_wrapped_dialect_precedence routeOkNull c10WitnessMsg
    (by intro m p; simp [routeOkNull])
  exact h.1 ⟨⟨"w1", [("ping", .obj [])]⟩⟩ ⟨"w1", "ping", .obj []⟩ rfl rfl

theorem splitNl_ne_nil (c : List Char) : splitNl c ≠ [] := by
  cases c with
  | nil => simp [splitNl]
  | cons x xs =>
      unfold splitNl
      by_cases h : x = '\n'
      · simp [h]
      · simp only [h, if_false]
        cases hs : splitNl xs <;> simp

theorem joinNl_cons (l : List (List Char)) (x : List Char) (h : l ≠ []) :
    joinNl (x :: l) = x ++ '\n' :: joinNl l := by
  cases l with
  | nil => exact absurd rfl h
  | cons y ys => rfl

theorem joinNl_splitNl (c : List Char) : joinNl (splitNl c) = c := by
  induction c with
  | nil => rfl
  | cons x xs ih =>
      unfold splitNl
      by_cases h : x = '\n'
      · rw [if_pos h, joinNl_cons _ _ (splitNl_ne_nil xs), ih, h]
        rfl
      · rw [if_neg h]
        cases hs : splitNl xs with
        | nil => exact absurd hs (splitNl_ne_nil xs)
        | cons l ls =>
            rw [hs] at ih
            cases ls with
            | nil =>
                show joinNl [x :: l] = x :: xs
                have : joinNl [l] = xs := ih
                simp only [joinNl] at this ⊢
                rw [this]
            | cons m ms =>
                have h1 : joinNl ((x :: l) :: m :: ms) =
                    (x :: l) ++ '\n' :: joinNl (m :: ms) :=
                  joinNl_cons _ _ (by simp)
                have h2 : joinNl (l :: m :: ms) =
                    l ++ '\n' :: joinNl (m :: ms) :=
                  joinNl_cons _ _ (by simp)
                rw [h1]
                rw [h2] at ih
                rw [← ih]
                simp

theorem fsRead_fsWrite (fs : List (String × List Char)) (p : String)
    (c : List Char) : fsRead (fsWrite fs p c) p = some c := by
  simp [fsRead, fsWrite]

theorem bufFind_bufSet (bufs : List (String × List (List Char))) (p : String)
    (lines : List (List Char)) : bufFind (bufSet bufs p lines) p = some lines := by
  simp [bufFind, bufSet]

/-- C5 (confirmed): editFile writes the content verbatim to disk at the
normalized path and reports success with appliedChanges set, and a
subsequent readFile of the same path returns exactly that content with
encoding utf-8, whether it is served from the refreshed buffer (whose
lines are the content split on newlines, re-joined on read) or from
disk — the round trip preserves the content including any trailing
newline. -/
theorem c5_edit_read_round_trip (st : SysState) (p : String) (C : List Char) :
    (edit_file st p C).2 =
      .ok ⟨true, "Wrote " ++ toString C.length ++ " bytes to " ++ p, true⟩ ∧
    fsRead (edit_file st p C).1.fs (normalize_path st.cwd p) = some C ∧
    read_file (edit_file st p C).1 p = .ok ⟨true, C, "utf-8"⟩ := by
  refine ⟨rfl, ?_, ?_⟩
  · simp [edit_file, fsRead_fsWrite]
  · unfold read_file edit_file
    by_cases hn : st.nvimAvailable
    · cases hb : bufFind st.bufs (normalize_path st.cwd p) with
      | some lines => simp [hn, hb, bufFind_bufSet, joinNl_splitNl]
      | none => simp [hn, hb, fsRead_fsWrite]
    · simp [hn, fsRead_fsWrite]

/-- C5 witness instantiation at a concrete state, path and content. -/
theorem c5_witness :
    read_file (edit_file ⟨[], [], false, "/w"⟩ "/T/f.txt"
      ['b', 'e', 't', 'a', '\n']).1 "/T/f.txt" =
      .ok ⟨true, ['b', 'e', 't', 'a', '\n'], "utf-8"⟩ := by
  exact (c5_edit_read_round_trip ⟨[], [], false, "/w"⟩ "/T/f.txt"
    ['b', 'e', 't', 'a', '\n']).2.2

theorem selection_first_cell (last : Option SelectionState)
    (st : SelectionState) :
    (selection_handle_event true (some st) last).1 = some st := by
  unfold selection_handle_event
  by_cases h : last ≠ some st
  · simp [h]
  · push_neg at h
    simp [h]

/-- C6 (confirmed): starting from a cell that does not already hold the
observed state, invoking the selection handler twice in a row with the
same observed editor state broadcasts exactly one selectionDidChange (the
first call broadcasts, the second is suppressed because the cell now
equals the state), and on every invocation the last-broadcast cell is
updated exactly when a broadcast occurs. -/
theorem c6_selection_change_suppression (last : Option SelectionState)
    (st : SelectionState) :
    (selection_handle_event true (some st)
      (selection_handle_event true (some st) last).1).2 = [] ∧
    ((selection_handle_event true (some st) last).1 ≠ last ↔
      (selection_handle_event true (some st) last).2 ≠ []) ∧
    (last ≠ some st →
      (selection_handle_event true (some st) last).2 = [st] ∧
      (selection_handle_event true (some st) last).1 = some st) := by
  refine ⟨?_, ?_, ?_⟩
  · rw [selection_first_cell]
    simp [selection_handle_event]
  · by_cases h : last ≠ some st
    · simp [selection_handle_event, h]
      exact fun he => absurd he.symm h
    · push_neg at h
      simp [selection_handle_event, h]
  · intro h
    simp [selection_handle_event, h]

/-- C6 witness instantiation: from an empty cell, two identical
invocations broadcast exactly once. -/
theorem c6_witness :
    (selection_handle_event true (some ⟨"file:///a", 0, 0, 0, 0, ""⟩)
      none).2 = [⟨"file:///a", 0, 0, 0, 0, ""⟩] ∧
    (selection_handle_event true (some ⟨"file:///a", 0, 0, 0, 0, ""⟩)
      (selection_handle_event true (some ⟨"file:///a", 0, 0, 0, 0, ""⟩)
        none).1).2 = [] := by
  have h := c6_selection_change_suppression none ⟨"file:///a", 0, 0, 0, 0, ""⟩
  exact ⟨(h.2.2 (by simp)).1, h.1⟩

theorem run_message_loop_exit (lastPong : Nat) :
    ∀ (ts : List Nat) (lastPing : Nat),
    List.Chain' (fun a b => a ≤ b ∧ b ≤ a + READ_TIMEOUT_MS) ts →
    (∀ t0, ts.head? = some t0 →
      t0 < lastPong + PONG_TIMEOUT_MS + READ_TIMEOUT_MS) →
    (∃ t ∈ ts, lastPong + PONG_TIMEOUT_MS ≤ t) →
    ∃ texit, (run_message_loop ⟨lastPing, lastPong⟩ ts).2 = some texit ∧
      lastPong + PONG_TIMEOUT_MS ≤ texit ∧
      texit < lastPong + PONG_TIMEOUT_MS + READ_TIMEOUT_MS := by
  intro ts
  induction ts with
  | nil =>
      intro lastPing _ _ hreach
      simp at hreach
  | cons t rest ih =>
      intro lastPing hchain hfirst hreach
      by_cases hexit : PONG_TIMEOUT_MS ≤ t - lastPong
      · refine ⟨t, ?_, ?_, hfirst t rfl⟩
        · simp [run_message_loop, hexit]
        · unfold PONG_TIMEOUT_MS at hexit ⊢
          omega
      · have hbound : t < lastPong + PONG_TIMEOUT_MS := by
          unfold PONG_TIMEOUT_MS at hexit ⊢
          omega
        have hrest_reach : ∃ t2 ∈ rest, lastPong + PONG_TIMEOUT_MS ≤ t2 := by
          rcases hreach with ⟨t2, ht2, hge⟩
          rcases List.mem_cons.mp ht2 with h | h
          · exact absurd (h ▸ hge) (by omega)
          · exact ⟨t2, h, hge⟩
        have hrest_first : ∀ t0, rest.head? = some t0 →
            t0 < lastPong + PONG_TIMEOUT_MS + READ_TIMEOUT_MS := by
          intro t0 h0
          cases rest with
          | nil => cases h0
          | cons r rs =>
              have hrel := (List.chain'_cons.mp hchain).1
              injection h0 with h0
              omega
        have hrest_chain : List.Chain'
            (fun a b => a ≤ b ∧ b ≤ a + READ_TIMEOUT_MS) rest :=
          hchain.tail
        have hres := ih (if PING_INTERVAL_MS ≤ t - lastPing then t
          else lastPing) hrest_chain hrest_first hrest_reach
        rcases hres with ⟨texit, heq, hlo, hhi⟩
        refine ⟨texit, ?_, hlo, hhi⟩
        by_cases hping : PING_INTERVAL_MS ≤ t - lastPing <;>
          simp [run_message_loop, hexit, hping] at heq ⊢ <;>
          exact heq

theorem run_message_loop_ping_spacing :
    ∀ (ts : List Nat) (lastPing lastPong : Nat),
    List.Chain' (fun a b => a + PING_INTERVAL_MS ≤ b)
      (lastPing :: (run_message_loop ⟨lastPing, lastPong⟩ ts).1) := by
  intro ts
  induction ts with
  | nil =>
      intro lastPing lastPong
      simp [run_message_loop]
  | cons t rest ih =>
      intro lastPing lastPong
      by_cases hping : PING_INTERVAL_MS ≤ t - lastPing
      · have hstep : lastPing + PING_INTERVAL_MS ≤ t := by
          unfold PING_INTERVAL_MS at hping ⊢
          omega
        by_cases hexit : PONG_TIMEOUT_MS ≤ t - lastPong
        · simp [run_message_loop, hexit, hping, hstep]
        · have := ih t lastPong
          simp only [run_message_loop, hexit, hping, if_pos, if_true,
            if_false] at *
          simp only [List.cons_append, List.nil_append, List.chain'_cons]
          cases hr : (run_message_loop ⟨t, lastPong⟩ rest).1 with
          | nil => simp [hstep]
          | cons q qs =>
              rw [hr] at this
              exact ⟨hstep, this⟩
      · by_cases hexit : PONG_TIMEOUT_MS ≤ t - lastPong
        · simp [run_message_loop, hexit, hping]
        · have := ih lastPing lastPong
          simp only [run_message_loop, hexit, hping] at *
          simpa using this

/-- C7 (confirmed, discrete-time model): for a client that never delivers
a pong, provided the loop iterates at least every READ_TIMEOUT (100 ms) —
which holds when every read times out and nothing else blocks — and the
first iteration after the last pong occurs within one read-timeout, the
loop exits at a time texit with last_pong + 60 s ≤ texit <
last_pong + 60 s + READ_TIMEOUT, i.e. the connection closes in the
interval [60 s, 60 s + one read-timeout) after the last pong; moreover
consecutive pings (and the first ping after the initial last_ping) are at
least PING_INTERVAL (30 s) apart, pinging as soon as 30 s have elapsed. -/
theorem c7_heartbeat_timeout (lastPing lastPong : Nat) (ts : List Nat)
    (hchain : List.Chain' (fun a b => a ≤ b ∧ b ≤ a + READ_TIMEOUT_MS) ts)
    (hfirst : ∀ t0, ts.head? = some t0 →
      t0 < lastPong + PONG_TIMEOUT_MS + READ_TIMEOUT_MS)
    (hreach : ∃ t ∈ ts, lastPong + PONG_TIMEOUT_MS ≤ t) :
    (∃ texit, (run_message_loop ⟨lastPing, lastPong⟩ ts).2 = some texit ∧
      lastPong + PONG_TIMEOUT_MS ≤ texit ∧
      texit < lastPong + PONG_TIMEOUT_MS + READ_TIMEOUT_MS) ∧
    List.Chain' (fun a b => a + PING_INTERVAL_MS ≤ b)
      (lastPing :: (run_message_loop ⟨lastPing, lastPong⟩ ts).1) := by
  exact ⟨run_message_loop_exit lastPong ts lastPing hchain hfirst hreach,
    run_message_loop_ping_spacing ts lastPing lastPong⟩

/-- C7 witness instantiation: an iteration observed at 60 050 ms after a
pong at time 0 exits the loop inside the prescribed interval. -/
theorem c7_witness :
    ∃ texit, (run_message_loop ⟨0, 0⟩ [60050]).2 = some texit ∧
      0 + PONG_TIMEOUT_MS ≤ texit ∧
      texit < 0 + PONG_TIMEOUT_MS + READ_TIMEOUT_MS := by
  exact (c7_heartbeat_timeout 0 0 [60050] (by simp)
    (by intro t0 h0; injection h0 with h0; rw [← h0]; decide)
    ⟨60050, by simp, by decide⟩).1

theorem jsonFsRead_write (fs : JsonFs) (p : String) (j : Json) :
    jsonFsRead (jsonFsWrite fs p j) p = some j := by
  simp [jsonFsRead, jsonFsWrite]

theorem jsonFsRead_remove (fs : JsonFs) (p : String) :
    jsonFsRead (jsonFsRemove fs p) p = none := by
  unfold jsonFsRead jsonFsRemove
  rw [Option.map_eq_none']
  rw [List.find?_eq_none]
  intro e he
  have := (List.mem_filter.mp he).2
  simpa using this

/-- C8 (confirmed): when the server is not yet running, start() succeeds
returning (port, token, lockfile_path); the lockfile then exists at that
path and its JSON content carries a port field equal to the returned port
and an authToken field equal to the returned token; after stop() the
lockfile no longer exists. -/
theorem c8_lockfile_lifecycle (w : ServerWorld) (env : StartEnv)
    (hidle : w.server = none) :
    (server_start w env).2 =
      .ok (env.port, env.token,
        lockfile_dir env.home ++ "/" ++ toString env.port ++ ".json") ∧
    (∃ j : Json,
      jsonFsRead (server_start w env).1.fs
        (lockfile_dir env.home ++ "/" ++ toString env.port ++ ".json") =
        some j ∧
      j.get "port" = some (.num env.port) ∧
      j.get "authToken" = some (.str env.token)) ∧
    jsonFsRead (server_stop (server_start w env).1).fs
      (lockfile_dir env.home ++ "/" ++ toString env.port ++ ".json") =
      none := by
  refine ⟨?_, ?_, ?_⟩
  · simp [server_start, hidle, write_lockfile]
  · refine ⟨lockfileJson env.port env.token env.pid env.cwd env.ideName,
      ?_, rfl, rfl⟩
    simp [server_start, hidle, write_lockfile, jsonFsRead_write]
  · simp [server_start, hidle, write_lockfile, server_stop, jsonFsRead_remove]

/-- C8 witness instantiation at a concrete idle world and environment. -/
theorem c8_witness :
    jsonFsRead (server_stop (server_start ⟨[], none⟩
      ⟨"/home/u", 4321, "tok", 42, "/ws", "nvim 0.10.1"⟩).1).fs
      (lockfile_dir "/home/u" ++ "/" ++ toString 4321 ++ ".json") = none := by
  exact (c8_lockfile_lifecycle ⟨[], none⟩
    ⟨"/home/u", 4321, "tok", 42, "/ws", "nvim 0.10.1"⟩ rfl).2.2

end AmpExtras
